import Mathlib

/-!
Shallow embedding of the game-loop logic of `src/main.rs` (a Bevy flappy-bird
clone).  `f32` values are modelled as rationals (`ℚ`); each Bevy system is
modelled as a pure function on the components it queries; the ECS event and
state plumbing is made explicit (an event count, an `Option AppState` for
`NextState` writes, a boolean edge flag for `ButtonInput::just_pressed`).
Randomness (`rand::thread_rng` / `gen_range(48..=154)`) is modelled by an
arbitrary stream `g : ℕ → ℕ` of raw draws together with a cursor, each draw
being reduced to the inclusive range `48..=154`.
-/

namespace Flappy

/-- `const PIPE_SPACE: f32 = 42.;` -/
def PIPE_SPACE : ℚ := 42

/-- `const PIPE_TO_PIPE_SPACE: f32 = 160.;` -/
def PIPE_TO_PIPE_SPACE : ℚ := 160

/-- `const PIPE_WIDTH: f32 = 26.;` -/
def PIPE_WIDTH : ℚ := 26

/-- `const SCROLL_SPEED: f32 = -100.;` -/
def SCROLL_SPEED : ℚ := -100

/-- `const TERMINAL_VELOCITY: f32 = -400.;` -/
def TERMINAL_VELOCITY : ℚ := -400

/-- `const JUMP_VELOCITY: f32 = 200.;` -/
def JUMP_VELOCITY : ℚ := 200

/-- `const GRAVITY: f32 = -982.;` -/
def GRAVITY : ℚ := -982

/-- `enum AppState { MainMenu, Playing, GameOver }` -/
inductive AppState
  | MainMenu
  | Playing
  | GameOver
deriving DecidableEq, Repr

/-- Bevy's `Aabb2d`: an axis-aligned box stored as min/max corners. -/
structure Aabb2d where
  min : ℚ × ℚ
  max : ℚ × ℚ
deriving DecidableEq, Repr

/-- `Aabb2d::new(center, half_size)`: corners at `center ∓ half_size`. -/
def Aabb2d.new (center halfSize : ℚ × ℚ) : Aabb2d :=
  ⟨(center.1 - halfSize.1, center.2 - halfSize.2),
   (center.1 + halfSize.1, center.2 + halfSize.2)⟩

/-- `Aabb2d::half_size()`: `(max - min) / 2`. -/
def Aabb2d.halfSize (a : Aabb2d) : ℚ × ℚ :=
  ((a.max.1 - a.min.1) / 2, (a.max.2 - a.min.2) / 2)

/-- Bevy's `Aabb2d::intersects` (`IntersectsVolume`): inclusive overlap of
both axis intervals. -/
def Aabb2d.intersects (a b : Aabb2d) : Bool :=
  (decide (a.min.1 ≤ b.max.1) && decide (b.min.1 ≤ a.max.1)) &&
  (decide (a.min.2 ≤ b.max.2) && decide (b.min.2 ≤ a.max.2))

/-- `fn offset_aabb(aabb, translation)`: re-centers the box at the
translation's xy, keeping the half size. -/
def offset_aabb (aabb : Aabb2d) (translation : ℚ × ℚ) : Aabb2d :=
  Aabb2d.new translation aabb.halfSize

/-- `struct Frame { index: usize, duration: f32 }` -/
structure Frame where
  index : ℕ
  duration : ℚ
deriving DecidableEq, Repr

/-- `struct Animation { t: f32, repeat: bool, frame: usize, frames: Vec<Frame> }` -/
structure Animation where
  t : ℚ
  «repeat» : Bool
  frame : ℕ
  frames : List Frame
deriving DecidableEq, Repr

/-- The `bird_frames` list built in `create_world`:
`[(Bird3, 0.2), (Bird2, 0.2), (Bird1, 0.2)]` with `Bird1 = 1`, `Bird2 = 2`,
`Bird3 = 3` from the `Atlas` enum. -/
def bird_frames : List Frame :=
  [⟨3, 1/5⟩, ⟨2, 1/5⟩, ⟨1, 1/5⟩]

/-- The player `Animation` component as spawned by `create_world`:
`frame: 2, repeat: false, t: 0., frames: bird_frames`. -/
def player_animation : Animation :=
  { t := 0, «repeat» := false, frame := 2, frames := bird_frames }

/-- Result of the `update_animation` loop: `ok` is normal termination, `oob`
models the `panic!` of the out-of-bounds index `animation.frames[animation.frame]`,
and `fuelOut` marks that the loop did not finish within the given fuel (the
Rust loop has no intrinsic bound, so the embedding is fuel-indexed). -/
inductive AnimResult
  | ok (a : Animation)
  | oob
  | fuelOut
deriving DecidableEq, Repr

/-- The `loop { .. }` body of `update_animation`, fuel-indexed.  Each
iteration reads `frames[frame]`, computes the remaining time
`(1 - t) * duration` of the current frame, and either consumes the whole
delta inside the current frame (`delta < remaining`) or subtracts the
remainder and advances: wrap to frame 0 when finished and repeating, clamp to
the last frame with `t = 1` when finished and not repeating, otherwise step
to the next frame with `t = 0`. -/
def animLoop : ℕ → ℚ → Animation → AnimResult
  | 0, _, _ => .fuelOut
  | fuel + 1, delta, a =>
    match a.frames.get? a.frame with
    | none => .oob
    | some frame =>
      let remaining := (1 - a.t) * frame.duration
      if delta < remaining then
        .ok { a with t := a.t + delta / frame.duration }
      else
        let delta' := delta - remaining
        let finished := a.frame + 1 ≥ a.frames.length
        if finished then
          if a.«repeat» then
            animLoop fuel delta' { a with frame := 0, t := 0 }
          else
            .ok { a with frame := a.frames.length - 1, t := 1 }
        else
          animLoop fuel delta' { a with frame := a.frame + 1, t := 0 }

/-- `fn update_animation`: run the loop on the elapsed delta. -/
def update_animation (fuel : ℕ) (delta : ℚ) (a : Animation) : AnimResult :=
  animLoop fuel delta a

/-- `texture_atlas.index = animation.frames[animation.frame].index` after the
loop: the sprite index displayed for an animation state. -/
def displayedIndex (a : Animation) : Option ℕ :=
  (a.frames.get? a.frame).map Frame.index

/-- `fn trigger_jump_animation`: `for _ in reader.read() { animation.frame = 0 }`,
iterated once per buffered `OnJumped` event. -/
def trigger_jump_animation : ℕ → Animation → Animation
  | 0, a => a
  | n + 1, a => trigger_jump_animation n { a with frame := 0 }

/-- `fn apply_gravity`: `velocity += gravity * dt; velocity = velocity.max(TERMINAL_VELOCITY);
translation.y += velocity * dt`.  Returns the new `(y, velocity)`. -/
def apply_gravity (dt y v : ℚ) : ℚ × ℚ :=
  let v1 := v + GRAVITY * dt
  let v2 := max v1 TERMINAL_VELOCITY
  (y + v2 * dt, v2)

/-- One entity of the `scroll_backgrounds` query (`With<Background>`): its
stored x translation.  `x += dt * SCROLL_SPEED; if x < -143 { x += 143 }`. -/
def scrollBackground (dt x : ℚ) : ℚ :=
  let x' := x + dt * SCROLL_SPEED
  if x' < -143 then x' + 143 else x'

/-- `fn scroll_backgrounds`: the per-tile rule applied to every entity in the
`With<Background>` query. -/
def scroll_backgrounds (dt : ℚ) (xs : List ℚ) : List ℚ :=
  xs.map (scrollBackground dt)

/-- `fn random_pipe_height`: `rng.gen_range(48..=154) as f32` — a uniform
integer draw in the inclusive range `48..=154`, promoted to the position
type; the raw draw `g k` of the modelled RNG stream is reduced into the
107-element range. -/
def random_pipe_height (g : ℕ → ℕ) (k : ℕ) : ℚ :=
  ((48 + g k % 107 : ℕ) : ℚ)

/-- An `Obstacle` entity's translation: x drives the scroll, y is the gap
offset. -/
structure Obstacle where
  x : ℚ
  y : ℚ
deriving DecidableEq, Repr

/-- One entity of the `scroll_pipes` query (`With<Obstacle>`):
`x += dt * SCROLL_SPEED; if x < -144*2 { let offset = random_pipe_height();
x += PIPE_TO_PIPE_SPACE * 4; y = offset }`.  Returns the updated obstacle and
RNG cursor. -/
def scrollPipe (g : ℕ → ℕ) (k : ℕ) (dt : ℚ) (o : Obstacle) : Obstacle × ℕ :=
  let x' := o.x + dt * SCROLL_SPEED
  if x' < -144 * 2 then
    ({ x := x' + PIPE_TO_PIPE_SPACE * 4, y := random_pipe_height g k }, k + 1)
  else
    ({ o with x := x' }, k)

/-- `fn scroll_pipes`: the per-group rule applied to every entity in the
`With<Obstacle>` query, threading the RNG cursor. -/
def scroll_pipes (g : ℕ → ℕ) (dt : ℚ) : ℕ → List Obstacle → List Obstacle × ℕ
  | k, [] => ([], k)
  | k, o :: os =>
    let ok' := scrollPipe g k dt o
    let rest := scroll_pipes g dt ok'.2 os
    (ok'.1 :: rest.1, rest.2)

/-- The player's `Collider`: `Aabb2d::new(Vec2::new(0., 0.), Vec2::new(6., 4.))`. -/
def player_collider : Aabb2d := Aabb2d.new (0, 0) (6, 4)

/-- Each pipe's `Collider`: `Aabb2d::new(Vec2::new(0., 0.), Vec2::new(PIPE_WIDTH / 2., 80.))`. -/
def pipe_collider : Aabb2d := Aabb2d.new (0, 0) (PIPE_WIDTH / 2, 80)

/-- The world-space boxes of an obstacle group's two `Pipe` children: the top
pipe sits at the group's translation, the bottom pipe at local offset
`(0, -160 - PIPE_SPACE)`; each collider is re-centered at the child's global
translation by `offset_aabb`. -/
def pipeBoxes (o : Obstacle) : List Aabb2d :=
  [offset_aabb pipe_collider (o.x, o.y),
   offset_aabb pipe_collider (o.x, o.y + (-160 - PIPE_SPACE))]

/-- Outcome of `crash_and_die` on the player: the (possibly re-written)
velocity and whether `state.set(AppState::GameOver)` was called. -/
structure CrashOutcome where
  velocity : ℚ
  gameOver : Bool
deriving DecidableEq, Repr

/-- `fn crash_and_die`: first the raw-translation bounds test
(`y < -128 || y > 128`), then the box test of the offset player collider
against every pipe's offset box; the first hit sets `GameOver`, writes
`velocity = JUMP_VELOCITY * 2` and returns.  The player's translation x is
never written anywhere in the program, so it is fixed at its spawn value 0. -/
def crash_and_die (playerY v : ℚ) (obstacles : List Obstacle) : CrashOutcome :=
  let player := offset_aabb player_collider (0, playerY)
  if playerY < -128 ∨ playerY > 128 then
    ⟨JUMP_VELOCITY * 2, true⟩
  else if obstacles.any (fun o => (pipeBoxes o).any (fun p => p.intersects player)) then
    ⟨JUMP_VELOCITY * 2, true⟩
  else
    ⟨v, false⟩

/-- `fn input` (runs in `Playing`): on `just_pressed`, write
`velocity = JUMP_VELOCITY` and send one `OnJumped` event.  Returns the new
velocity and whether the event was sent. -/
def input (pressed : Bool) (v : ℚ) : ℚ × Bool :=
  if pressed then (JUMP_VELOCITY, true) else (v, false)

/-- `fn start_game` (runs in `MainMenu`): on `just_pressed`, set
`NextState = Playing`, write `velocity = JUMP_VELOCITY` and send one
`OnJumped` event.  Returns the `NextState` write, the new velocity and
whether the event was sent. -/
def start_game (pressed : Bool) (v : ℚ) : Option AppState × ℚ × Bool :=
  if pressed then (some .Playing, JUMP_VELOCITY, true) else (none, v, false)

/-- `fn restart_game` (runs in `GameOver`): on `just_pressed`, set
`NextState = MainMenu`; it queries no velocity and writes nothing else. -/
def restart_game (pressed : Bool) : Option AppState :=
  if pressed then some AppState.MainMenu else none

/-- Bevy's `ButtonInput::just_pressed` edge semantics: true exactly when the
button is down this frame and was up the previous frame. -/
def just_pressed (prev cur : Bool) : Bool := cur && !prev

/-- The per-frame `just_pressed` flags produced by a raw press sequence,
starting from a given previous-frame button state. -/
def edgeFlags : Bool → List Bool → List Bool
  | _, [] => []
  | prev, cur :: rest => just_pressed prev cur :: edgeFlags cur rest


/-- The mutable world state the non-animation Update systems touch: the
player's y translation and velocity, the x translations of the
`With<Background>` entities (only the parent background tile carries the
`Background` component), and the `With<Obstacle>` group translations.  The
player's `Animation` component is modelled separately above, since
`update_animation` and `trigger_jump_animation` query only it. -/
structure World where
  playerY : ℚ
  velocity : ℚ
  backgrounds : List ℚ
  obstacles : List Obstacle
deriving DecidableEq, Repr

/-- `fn create_world` (runs `OnEnter(AppState::MainMenu)`): despawns the old
root and spawns the player at the origin with zero velocity, the
`Background` entity at x = 0 (its child tile at +143 carries no `Background`
component), and 4 obstacle groups at `x = i * PIPE_TO_PIPE_SPACE + 144`, each
with a fresh `random_pipe_height` draw.  Returns the world and the advanced
RNG cursor. -/
def create_world (g : ℕ → ℕ) (k : ℕ) : World × ℕ :=
  ({ playerY := 0
     velocity := 0
     backgrounds := [0]
     obstacles := (List.range 4).map fun i : ℕ =>
       { x := (i : ℚ) * PIPE_TO_PIPE_SPACE + 144, y := random_pipe_height g (k + i) } },
   k + 4)

/-- One frame of the schedule of `main()`, on the state components modelled
in `World`, taking the systems in the order listed by the specification
(`input`, physics, scroll, collision); the run conditions are exactly those
of `main()`: `start_game.run_if(in_state(MainMenu))`,
`restart_game.run_if(in_state(GameOver))`,
`apply_gravity.run_if(not(in_state(MainMenu)))`, and the remaining systems
`run_if(in_state(Playing))`.  A `NextState` write takes effect for the next
frame, and entering `MainMenu` re-runs `create_world`.  Returns the next
state, the next world and the advanced RNG cursor. -/
def stepFrame (g : ℕ → ℕ) (pressed : Bool) (dt : ℚ) :
    AppState → World → ℕ → AppState × World × ℕ
  | .MainMenu, w, k =>
    match start_game pressed w.velocity with
    | (some s, v, _) => (s, { w with velocity := v }, k)
    | (none, v, _) => (.MainMenu, { w with velocity := v }, k)
  | .Playing, w, k =>
    let v1 := (input pressed w.velocity).1
    let yv := apply_gravity dt w.playerY v1
    let bgs := scroll_backgrounds dt w.backgrounds
    let obs := scroll_pipes g dt k w.obstacles
    let c := crash_and_die yv.1 yv.2 obs.1
    let s' := if c.gameOver then AppState.GameOver else .Playing
    (s', { playerY := yv.1, velocity := c.velocity, backgrounds := bgs, obstacles := obs.1 },
     obs.2)
  | .GameOver, w, k =>
    let yv := apply_gravity dt w.playerY w.velocity
    match restart_game pressed with
    | some s =>
      let wk := create_world g k
      (s, wk.1, wk.2)
    | none => (.GameOver, { w with playerY := yv.1, velocity := yv.2 }, k)

/-- The configurations reachable by the game: the fresh `MainMenu` world
built at startup, closed under arbitrary frames (any press flag, any elapsed
time). -/
inductive Reachable (g : ℕ → ℕ) : AppState → World → ℕ → Prop
  | init (k : ℕ) : Reachable g .MainMenu (create_world g k).1 (create_world g k).2
  | step {s w k} (pressed : Bool) (dt : ℚ) :
      Reachable g s w k →
      Reachable g (stepFrame g pressed dt s w k).1 (stepFrame g pressed dt s w k).2.1
        (stepFrame g pressed dt s w k).2.2

/-- Every obstacle group's gap offset is an integer of `[48, 154]` promoted
to the position type. -/
def gapInv (obstacles : List Obstacle) : Prop :=
  ∀ o ∈ obstacles, ∃ n : ℕ, 48 ≤ n ∧ n ≤ 154 ∧ o.y = (n : ℚ)

/-- The ten systems `main()` adds to the `Update` schedule. -/
inductive Sys
  | startGame
  | restartGame
  | applyGravity
  | updateAnimation
  | inputSys
  | triggerJumpAnimation
  | scrollBackgrounds
  | scrollPipes
  | crashAndDie
  | applyRotation
deriving DecidableEq, Repr

/-- The `Update` systems registered by `main()`. -/
def updateSystems : List Sys :=
  [.startGame, .restartGame, .applyGravity, .updateAnimation, .inputSys,
   .triggerJumpAnimation, .scrollBackgrounds, .scrollPipes, .crashAndDie, .applyRotation]

/-- The ordering edges `main()` declares between `Update` systems.  Each
`add_systems` call passes a plain tuple with no `.chain()` and no
`.before`/`.after`, so the declared edge set is empty. -/
def orderingConstraints : List (Sys × Sys) := []

/-- An execution order Bevy's `Update` scheduler may choose for one frame: a
permutation of the registered systems that respects every declared ordering
edge. -/
def validSchedule (order : List Sys) : Prop :=
  order.Perm updateSystems ∧
  ∀ c ∈ orderingConstraints, order.indexOf c.1 < order.indexOf c.2

/-- The run condition `main()` attaches to each `Update` system:
`start_game` in `MainMenu`, `restart_game` in `GameOver`, `apply_gravity` and
`update_animation` whenever not in `MainMenu`, and the rest in `Playing`. -/
def runCondition (s : Sys) (st : AppState) : Bool :=
  match s with
  | .startGame => st = .MainMenu
  | .restartGame => st = .GameOver
  | .applyGravity => st ≠ .MainMenu
  | .updateAnimation => st ≠ .MainMenu
  | _ => st = .Playing


lemma player_collider_halfSize : player_collider.halfSize = (6, 4) := by
  norm_num [player_collider, Aabb2d.new, Aabb2d.halfSize, Prod.ext_iff]

lemma offset_player (y : ℚ) :
    offset_aabb player_collider (0, y) = Aabb2d.new (0, y) (6, 4) := by
  rw [offset_aabb, player_collider_halfSize]

/-- Claim C1: for every elapsed time Δt ≥ 0 and starting velocity v, one
physics step sets the velocity to `max (v + (-982) * Δt) (-400)`, then adds
that post-step velocity times Δt to the y position; the post-step velocity is
never below −400, and the position is not clamped. -/
theorem apply_gravity_spec (y v dt : ℚ) (_hdt : 0 ≤ dt) :
    (apply_gravity dt y v).2 = max (v + (-982) * dt) (-400) ∧
    (apply_gravity dt y v).1 = y + (apply_gravity dt y v).2 * dt ∧
    -400 ≤ (apply_gravity dt y v).2 := by
  refine ⟨rfl, rfl, ?_⟩
  simp only [apply_gravity, TERMINAL_VELOCITY]
  exact le_max_right _ _

/-- Witness for C1 at y = 0, v = 0, Δt = 1. -/
theorem apply_gravity_spec_witness :
    (0 : ℚ) ≤ 1 ∧
    ((apply_gravity 1 0 0).2 = max ((0 : ℚ) + (-982) * 1) (-400) ∧
     (apply_gravity 1 0 0).1 = 0 + (apply_gravity 1 0 0).2 * 1 ∧
     -400 ≤ (apply_gravity 1 0 0).2) :=
  ⟨by norm_num, apply_gravity_spec 0 0 1 (by norm_num)⟩

/-- Claim C2: the death check first tests the raw y translation against the
vertical bounds (kill iff y < −128 or y > 128, point-based), and only then
tests the player's box (half-extents (6,4) centered on its translation)
against every pipe's world box; on a kill it sets `GameOver`, writes velocity
`JUMP_VELOCITY * 2 = 400` and does nothing else; in particular at y = 125 the
player's box top 129 exceeds 128 yet no out-of-bounds kill fires. -/
theorem crash_and_die_spec :
    (∀ (y v : ℚ) (obs : List Obstacle),
       crash_and_die y v obs =
         if y < -128 ∨ y > 128 then ⟨JUMP_VELOCITY * 2, true⟩
         else if obs.any (fun o => (pipeBoxes o).any
                  (fun p => p.intersects (Aabb2d.new (0, y) (6, 4)))) then
           ⟨JUMP_VELOCITY * 2, true⟩
         else ⟨v, false⟩) ∧
    (∀ y : ℚ, offset_aabb player_collider (0, y) = Aabb2d.new (0, y) (6, 4)) ∧
    (∀ a b : Aabb2d, a.intersects b = true ↔
       (a.min.1 ≤ b.max.1 ∧ b.min.1 ≤ a.max.1 ∧ a.min.2 ≤ b.max.2 ∧ b.min.2 ≤ a.max.2)) ∧
    JUMP_VELOCITY * 2 = 400 ∧
    crash_and_die 125 0 [] = ⟨0, false⟩ ∧
    (Aabb2d.new (0, (125 : ℚ)) (6, 4)).max.2 = 129 := by
  refine ⟨?_, offset_player, ?_, by norm_num [JUMP_VELOCITY],
    by norm_num [crash_and_die], by norm_num [Aabb2d.new]⟩
  · intro y v obs
    simp only [crash_and_die, offset_player]
  · intro a b
    simp [Aabb2d.intersects, and_assoc]

/-- Claim C3: each background tile's and obstacle group's x decreases by
100·Δt; a background tile below −143 gets exactly 143 added (no reset to 0);
an obstacle group below −288 gets exactly 640 added and its y is replaced by
a fresh uniform integer draw from [48, 154] promoted to the position type. -/
theorem scroll_spec :
    (∀ dt x : ℚ, scrollBackground dt x =
       if x - 100 * dt < -143 then x - 100 * dt + 143 else x - 100 * dt) ∧
    (∀ (dt : ℚ) (xs : List ℚ),
       scroll_backgrounds dt xs = xs.map (scrollBackground dt)) ∧
    (∀ (g : ℕ → ℕ) (k : ℕ) (dt : ℚ) (o : Obstacle),
       scrollPipe g k dt o =
         if o.x - 100 * dt < -288 then
           ({ x := o.x - 100 * dt + 640, y := random_pipe_height g k }, k + 1)
         else ({ o with x := o.x - 100 * dt }, k)) ∧
    (∀ (g : ℕ → ℕ) (k : ℕ), ∃ n : ℕ, 48 ≤ n ∧ n ≤ 154 ∧
       random_pipe_height g k = (n : ℚ)) ∧
    (∀ (g : ℕ → ℕ) (dt : ℚ) (k : ℕ) (o : Obstacle) (os : List Obstacle),
       scroll_pipes g dt k (o :: os) =
         ((scrollPipe g k dt o).1 ::
            (scroll_pipes g dt (scrollPipe g k dt o).2 os).1,
          (scroll_pipes g dt (scrollPipe g k dt o).2 os).2)) := by
  refine ⟨?_, fun _ _ => rfl, ?_, ?_, fun _ _ _ _ _ => rfl⟩
  · intro dt x
    have h : x + dt * SCROLL_SPEED = x - 100 * dt := by
      rw [SCROLL_SPEED]; ring
    simp only [scrollBackground, h]
  · intro g k dt o
    have h : o.x + dt * SCROLL_SPEED = o.x - 100 * dt := by
      rw [SCROLL_SPEED]; ring
    have h2 : (-144 : ℚ) * 2 = -288 := by norm_num
    have h3 : PIPE_TO_PIPE_SPACE * 4 = 640 := by rw [PIPE_TO_PIPE_SPACE]; norm_num
    simp only [scrollPipe, h, h2, h3]
  · intro g k
    refine ⟨48 + g k % 107, by omega, ?_, rfl⟩
    have : g k % 107 < 107 := Nat.mod_lt _ (by omega)
    omega

lemma edgeFlags_held (n : ℕ) :
    edgeFlags true (List.replicate n true) = List.replicate n false := by
  induction n with
  | zero => rfl
  | succ n ih => simpa [edgeFlags, just_pressed, List.replicate_succ] using ih

/-- Claim C5: a press edge in `Playing` sets the velocity to exactly 200 and
emits one jump event; in `MainMenu` it transitions to `Playing` with the same
impulse; in `GameOver` it transitions to `MainMenu` with no impulse; without
an edge none of the handlers have any effect, and a button held for n + 1
frames yields exactly one rising edge. -/
theorem input_handlers_spec :
    (∀ v, input true v = (200, true)) ∧
    (∀ v, input false v = (v, false)) ∧
    JUMP_VELOCITY = 200 ∧
    (∀ v, start_game true v = (some .Playing, 200, true)) ∧
    (∀ v, start_game false v = (none, v, false)) ∧
    restart_game true = some .MainMenu ∧
    restart_game false = none ∧
    (∀ n : ℕ, (edgeFlags false (List.replicate (n + 1) true)).count true = 1) := by
  refine ⟨fun _ => rfl, fun _ => rfl, rfl, fun _ => rfl, fun _ => rfl, rfl, rfl, ?_⟩
  intro n
  simp [List.replicate_succ, edgeFlags, just_pressed, edgeFlags_held,
    List.count_cons, List.count_replicate]

lemma trigger_jump_fixed (n : ℕ) (a : Animation) :
    trigger_jump_animation n { a with frame := 0 } = { a with frame := 0 } := by
  induction n with
  | zero => rfl
  | succ n ih => simpa [trigger_jump_animation] using ih

/-- Claim C9: processing at least one jump event sets the animation's frame
index to 0 and changes nothing else — t, the repeat flag and the frame list
keep their previous values; processing zero events changes nothing. -/
theorem trigger_jump_animation_spec :
    ∀ (a : Animation) (n : ℕ),
      trigger_jump_animation (n + 1) a = { a with frame := 0 } ∧
      (trigger_jump_animation (n + 1) a).t = a.t ∧
      (trigger_jump_animation (n + 1) a).«repeat» = a.«repeat» ∧
      (trigger_jump_animation (n + 1) a).frames = a.frames ∧
      trigger_jump_animation 0 a = a := by
  intro a n
  have h : trigger_jump_animation (n + 1) a = { a with frame := 0 } := by
    simpa [trigger_jump_animation] using trigger_jump_fixed n a
  exact ⟨h, by rw [h], by rw [h], by rw [h], rfl⟩


/-- Claim C4: an animation step repeatedly subtracts the current frame's
remaining duration and advances while the delta is at least that remainder,
consuming the delta partially inside the current frame otherwise; with
repeat = false, exhausting the list clamps to the last frame at t = 1 and
discards the remaining delta.  For the player's frames
[(3, 0.2), (2, 0.2), (1, 0.2)] with repeat = false, 0.65 s elapsed from
frame 0, t = 0 lands on the last frame with t = 1 and displayed sprite index
1, and any further step leaves the state unchanged. -/
theorem update_animation_spec :
    (∀ (a : Animation) (f : Frame) (δ : ℚ) (fuel : ℕ),
       a.frames.get? a.frame = some f → δ < (1 - a.t) * f.duration →
       update_animation (fuel + 1) δ a = .ok { a with t := a.t + δ / f.duration }) ∧
    (∀ (a : Animation) (f : Frame) (δ : ℚ) (fuel : ℕ),
       a.frames.get? a.frame = some f → a.«repeat» = false →
       a.frames.length ≤ a.frame + 1 → (1 - a.t) * f.duration ≤ δ →
       update_animation (fuel + 1) δ a =
         .ok { a with frame := a.frames.length - 1, t := 1 }) ∧
    update_animation 4 (13/20)
        { t := 0, «repeat» := false, frame := 0, frames := bird_frames } =
      .ok { t := 1, «repeat» := false, frame := 2, frames := bird_frames } ∧
    displayedIndex { t := 1, «repeat» := false, frame := 2, frames := bird_frames } =
      some 1 ∧
    (∀ δ : ℚ, 0 ≤ δ → ∀ fuel : ℕ, 1 ≤ fuel →
       update_animation fuel δ
           { t := 1, «repeat» := false, frame := 2, frames := bird_frames } =
         .ok { t := 1, «repeat» := false, frame := 2, frames := bird_frames }) := by
  refine ⟨?_, ?_, ?_, rfl, ?_⟩
  · intro a f δ fuel hf hlt
    simp only [update_animation, animLoop, hf]
    rw [if_pos hlt]
  · intro a f δ fuel hf hrep hfin hge
    simp only [update_animation, animLoop, hf]
    rw [if_neg (not_lt.mpr hge)]
    simp [hrep, hfin]
  · norm_num [update_animation, animLoop, bird_frames]
  · intro δ hδ fuel hf
    rcases fuel with _ | n
    · exact absurd hf (by omega)
    · simp only [update_animation, animLoop, bird_frames]
      norm_num [not_lt.mpr hδ]

/-- Witness for C4: the partial-consumption rule at δ = 0.1 on the jump-reset
bird animation, the clamp rule at δ = 1 from the middle of the last frame,
and the frozen clamped state absorbing a further step of δ = 1. -/
theorem update_animation_spec_witness :
    update_animation (0 + 1) (1/10)
        { t := 0, «repeat» := false, frame := 0, frames := bird_frames } =
      .ok { t := (0 : ℚ) + (1/10) / (1/5), «repeat» := false, frame := 0,
            frames := bird_frames } ∧
    update_animation (0 + 1) 1
        { t := 1/2, «repeat» := false, frame := 2, frames := bird_frames } =
      .ok { t := 1, «repeat» := false, frame := bird_frames.length - 1,
            frames := bird_frames } ∧
    update_animation 1 1
        { t := 1, «repeat» := false, frame := 2, frames := bird_frames } =
      .ok { t := 1, «repeat» := false, frame := 2, frames := bird_frames } :=
  ⟨update_animation_spec.1 _ ⟨3, 1/5⟩ _ 0 rfl (by norm_num),
   update_animation_spec.2.1 _ ⟨1, 1/5⟩ _ 0 rfl rfl (by norm_num [bird_frames])
     (by norm_num),
   update_animation_spec.2.2.2.2 1 (by norm_num) 1 (by norm_num)⟩

/-- Claim C6: the only state transitions are MainMenu→Playing on a press
(also applying the jump impulse), Playing→GameOver exactly when the kill
check fires on the frame's updated player and obstacles, and
GameOver→MainMenu on a press (rebuilding the world); without a press the
state never changes except for the kill-driven Playing→GameOver. -/
theorem state_transitions_spec :
    (∀ (g : ℕ → ℕ) (dt : ℚ) (w : World) (k : ℕ),
       stepFrame g true dt .MainMenu w k =
         (.Playing, { w with velocity := JUMP_VELOCITY }, k)) ∧
    (∀ (g : ℕ → ℕ) (dt : ℚ) (w : World) (k : ℕ),
       stepFrame g false dt .MainMenu w k = (.MainMenu, w, k)) ∧
    (∀ (g : ℕ → ℕ) (p : Bool) (dt : ℚ) (w : World) (k : ℕ),
       (stepFrame g p dt .Playing w k).1 = .Playing ∨
       (stepFrame g p dt .Playing w k).1 = .GameOver) ∧
    (∀ (g : ℕ → ℕ) (p : Bool) (dt : ℚ) (w : World) (k : ℕ),
       ((stepFrame g p dt .Playing w k).1 = .GameOver ↔
         (crash_and_die (apply_gravity dt w.playerY (input p w.velocity).1).1
            (apply_gravity dt w.playerY (input p w.velocity).1).2
            (scroll_pipes g dt k w.obstacles).1).gameOver = true)) ∧
    (∀ (g : ℕ → ℕ) (dt : ℚ) (w : World) (k : ℕ),
       stepFrame g true dt .GameOver w k =
         (.MainMenu, (create_world g k).1, (create_world g k).2)) ∧
    (∀ (g : ℕ → ℕ) (dt : ℚ) (w : World) (k : ℕ),
       (stepFrame g false dt .GameOver w k).1 = .GameOver) ∧
    (∀ (g : ℕ → ℕ) (dt : ℚ) (s : AppState) (w : World) (k : ℕ),
       (stepFrame g false dt s w k).1 = s ∨
       (s = .Playing ∧ (stepFrame g false dt s w k).1 = .GameOver)) := by
  refine ⟨fun g dt w k => rfl, fun g dt w k => rfl, ?_, ?_, fun g dt w k => rfl, 
    fun g dt w k => rfl, ?_⟩
  · intro g p dt w k
    simp only [stepFrame]
    split
    · exact Or.inr rfl
    · exact Or.inl rfl
  · intro g p dt w k
    simp only [stepFrame]
    split
    · simp_all
    · simp_all
  · intro g dt s w k
    cases s with
    | MainMenu => exact Or.inl rfl
    | Playing =>
      simp only [stepFrame]
      split <;> simp_all
    | GameOver => exact Or.inl rfl


lemma random_pipe_height_mem (g : ℕ → ℕ) (k : ℕ) :
    ∃ n : ℕ, 48 ≤ n ∧ n ≤ 154 ∧ random_pipe_height g k = (n : ℚ) := by
  refine ⟨48 + g k % 107, by omega, ?_, rfl⟩
  have : g k % 107 < 107 := Nat.mod_lt _ (by omega)
  omega

lemma gapInv_create_world (g : ℕ → ℕ) (k : ℕ) :
    gapInv (create_world g k).1.obstacles := by
  intro o ho
  simp only [create_world, List.mem_map] at ho
  obtain ⟨i, -, rfl⟩ := ho
  simpa using random_pipe_height_mem g (k + i)

lemma gapInv_scrollPipe (g : ℕ → ℕ) (k : ℕ) (dt : ℚ) (o : Obstacle)
    (h : ∃ n : ℕ, 48 ≤ n ∧ n ≤ 154 ∧ o.y = (n : ℚ)) :
    ∃ n : ℕ, 48 ≤ n ∧ n ≤ 154 ∧ (scrollPipe g k dt o).1.y = (n : ℚ) := by
  simp only [scrollPipe]
  split
  · simpa using random_pipe_height_mem g k
  · simpa using h

lemma gapInv_scroll_pipes (g : ℕ → ℕ) (dt : ℚ) :
    ∀ (os : List Obstacle) (k : ℕ), gapInv os → gapInv (scroll_pipes g dt k os).1 := by
  intro os
  induction os with
  | nil => intro k h o ho; simp [scroll_pipes] at ho
  | cons o os ih =>
    intro k h o' ho'
    simp only [scroll_pipes, List.mem_cons] at ho'
    rcases ho' with rfl | hmem
    · exact gapInv_scrollPipe g k dt o (h o (List.mem_cons_self o os))
    · exact ih _ (fun x hx => h x (List.mem_cons_of_mem _ hx)) o' hmem

lemma gapInv_stepFrame (g : ℕ → ℕ) (p : Bool) (dt : ℚ) (s : AppState)
    (w : World) (k : ℕ) (h : gapInv w.obstacles) :
    gapInv (stepFrame g p dt s w k).2.1.obstacles := by
  cases s with
  | MainMenu => cases p <;> simpa [stepFrame, start_game] using h
  | Playing => simpa [stepFrame] using gapInv_scroll_pipes g dt w.obstacles k h
  | GameOver =>
    cases p
    · simpa [stepFrame, restart_game] using h
    · simpa [stepFrame, restart_game] using gapInv_create_world g k

/-- Claim C7: in every reachable configuration every obstacle group's gap
offset is an integer of [48, 154] promoted to the position type: the world
builder draws each initial offset from that range, and the only other write
to a group's y — the recycle in the pipe scroller — redraws from it. -/
theorem gap_offset_invariant (g : ℕ → ℕ) (s : AppState) (w : World) (k : ℕ)
    (h : Reachable g s w k) : gapInv w.obstacles := by
  induction h with
  | init k => exact gapInv_create_world g k
  | step pressed dt hr ih => exact gapInv_stepFrame g pressed dt _ _ _ ih

/-- Witness for C7 at the startup world of the constant-zero RNG stream. -/
theorem gap_offset_invariant_witness :
    gapInv (create_world (fun _ => 0) 0).1.obstacles :=
  gap_offset_invariant (fun _ => 0) .MainMenu (create_world (fun _ => 0) 0).1
    (create_world (fun _ => 0) 0).2 (Reachable.init 0)

/-- A schedule that satisfies every ordering edge declared by main() yet runs
physics before input and the collision check before the scrollers. -/
def badOrder : List Sys :=
  [.applyGravity, .crashAndDie, .scrollPipes, .scrollBackgrounds, .updateAnimation,
   .triggerJumpAnimation, .inputSys, .startGame, .restartGame, .applyRotation]

/-- Claim C8 counterexample: `badOrder` is a valid execution order for the
Update systems registered by main() — it is a permutation of the registered
set and main() declares no ordering edges — yet it runs `apply_gravity`
before `input` and `crash_and_die` before `scroll_pipes`, so the claimed
fixed order Input → Physics → Animation → Scroller → Collision is not
enforced by the code. -/
theorem schedule_order_counterexample :
    validSchedule badOrder ∧
    badOrder.indexOf Sys.applyGravity < badOrder.indexOf Sys.inputSys ∧
    badOrder.indexOf Sys.crashAndDie < badOrder.indexOf Sys.scrollPipes := by
  refine ⟨⟨by decide, ?_⟩, by decide, by decide⟩
  intro c hc
  simp [orderingConstraints] at hc

/-- Claim C8 amended: main() declares no ordering edges between its Update
systems (plain tuples, no chain/before/after calls), so every permutation of
the registered system set is a valid schedule; the order listed by the
specification is one possibility, not a guarantee of the code. -/
theorem schedule_unconstrained (order : List Sys) (h : order.Perm updateSystems) :
    validSchedule order :=
  ⟨h, fun c hc => absurd hc (by simp [orderingConstraints])⟩

/-- Witness for the amended C8 at the registration order itself. -/
theorem schedule_unconstrained_witness : validSchedule updateSystems :=
  schedule_unconstrained updateSystems (List.Perm.refl _)

/-- The frame index is strictly below the frame-list length, so the indexing
`animation.frames[animation.frame]` of the animation step is in bounds. -/
def animFrameInv (a : Animation) : Prop := a.frame < a.frames.length

lemma animLoop_safe :
    ∀ (fuel : ℕ) (δ : ℚ) (a : Animation), animFrameInv a →
      animLoop fuel δ a ≠ .oob ∧
      ∀ a', animLoop fuel δ a = .ok a' → animFrameInv a' := by
  intro fuel
  induction fuel with
  | zero =>
    intro δ a h
    exact ⟨by simp [animLoop], by simp [animLoop]⟩
  | succ fuel ih =>
    intro δ a h
    have hf : a.frames.get? a.frame = some (a.frames.get ⟨a.frame, h⟩) :=
      List.get?_eq_get h
    have hpos : 0 < a.frames.length := lt_of_le_of_lt (Nat.zero_le _) h
    simp only [animLoop, hf]
    by_cases hlt : δ < (1 - a.t) * (a.frames.get ⟨a.frame, h⟩).duration
    · rw [if_pos hlt]
      refine ⟨by simp, fun a' ha' => ?_⟩
      injection ha' with h2
      subst h2
      exact h
    · rw [if_neg hlt]
      by_cases hfin : a.frame + 1 ≥ a.frames.length
      · rw [if_pos hfin]
        by_cases hrep : a.«repeat» = true
        · rw [if_pos hrep]
          exact ih _ _ hpos
        · rw [if_neg hrep]
          refine ⟨by simp, fun a' ha' => ?_⟩
          injection ha' with h2
          subst h2
          exact Nat.sub_lt hpos Nat.one_pos
      · rw [if_neg hfin]
        refine ih _ _ ?_
        show a.frame + 1 < a.frames.length
        omega

/-- Claim C10: for the player animation as built by the world builder (a
fixed non-empty list of 3 frames, initial frame index 2), every operation
that writes the frame index — construction, the jump trigger, the animation
step — keeps it strictly below the frame-list length, so the indexing inside
the animation step is in bounds and its error branch is unreachable. -/
theorem animation_index_safety :
    (player_animation.frames.length = 3 ∧ animFrameInv player_animation) ∧
    (∀ (n : ℕ) (a : Animation), animFrameInv a →
       animFrameInv (trigger_jump_animation n a)) ∧
    (∀ (fuel : ℕ) (δ : ℚ) (a : Animation), animFrameInv a →
       update_animation fuel δ a ≠ .oob) ∧
    (∀ (fuel : ℕ) (δ : ℚ) (a a' : Animation), animFrameInv a →
       update_animation fuel δ a = .ok a' → animFrameInv a') ∧
    (∀ a : Animation, animFrameInv a → (a.frames.get? a.frame).isSome = true) := by
  refine ⟨⟨rfl, by simp [animFrameInv, player_animation, bird_frames]⟩, ?_, ?_, ?_, ?_⟩
  · intro n a h
    cases n with
    | zero => exact h
    | succ n =>
      have : trigger_jump_animation (n + 1) a = { a with frame := 0 } := by
        simpa [trigger_jump_animation] using trigger_jump_fixed n a
      rw [this]
      exact lt_of_le_of_lt (Nat.zero_le _) h
  · intro fuel δ a h
    exact (animLoop_safe fuel δ a h).1
  · intro fuel δ a a' h hok
    exact (animLoop_safe fuel δ a h).2 a' hok
  · intro a h
    rw [List.get?_eq_get h]
    rfl

/-- Witness for C10 at the spawned player animation, a 0.65 s step and one
jump event. -/
theorem animation_index_safety_witness :
    update_animation 4 (13/20) player_animation ≠ .oob ∧
    animFrameInv (trigger_jump_animation 1 player_animation) :=
  ⟨animation_index_safety.2.2.1 4 (13/20) player_animation
     (by simp [animFrameInv, player_animation, bird_frames]),
   animation_index_safety.2.1 1 player_animation
     (by simp [animFrameInv, player_animation, bird_frames])⟩

end Flappy
